import Mathlib

/-!
# Verification of the cotg repository

Shallow embedding, in Lean 4, of the parts of the repository that the
frozen claims are about:

* `src/db.py` — the message-persistence layer (`save_message`,
  `_is_duplicate`, `_maybe_rotate`, `_content_hash`), embedded directly
  from the Python source.
* the orchestrator subsystem (`orchestrator.py` / `schemas.py`) — its
  implementation is not part of the visible repository; only its test
  suite (`src/test_orchestrator.py`) and the specification describe it.
  Those parts are therefore modelled from the spec, and each such
  definition carries a doc comment saying so.
-/

namespace Cotg

/-! ## SHA-256 (embedding of `hashlib.sha256` as used by `db._content_hash`)

`db.py` hashes the UTF-8 encoding of the message content with SHA-256 and
keeps the first 16 hex characters.  The hash is embedded bit-faithfully,
with 32-bit words represented as `Nat` reduced mod `2 ^ 32`. -/

namespace SHA256

def M32 : Nat := 4294967296

def rotr (n x : Nat) : Nat := ((x >>> n) ||| (x <<< (32 - n))) % M32

def smallSigma0 (x : Nat) : Nat := (rotr 7 x) ^^^ (rotr 18 x) ^^^ (x >>> 3)

def smallSigma1 (x : Nat) : Nat := (rotr 17 x) ^^^ (rotr 19 x) ^^^ (x >>> 10)

def bigSigma0 (x : Nat) : Nat := (rotr 2 x) ^^^ (rotr 13 x) ^^^ (rotr 22 x)

def bigSigma1 (x : Nat) : Nat := (rotr 6 x) ^^^ (rotr 11 x) ^^^ (rotr 25 x)

def K : List Nat :=
  [1116352408, 1899447441, 3049323471, 3921009573, 961987163,
   1508970993, 2453635748, 2870763221, 3624381080, 310598401,
   607225278, 1426881987, 1925078388, 2162078206, 2614888103,
   3248222580, 3835390401, 4022224774, 264347078, 604807628,
   770255983, 1249150122, 1555081692, 1996064986, 2554220882,
   2821834349, 2952996808, 3210313671, 3336571891, 3584528711,
   113926993, 338241895, 666307205, 773529912, 1294757372,
   1396182291, 1695183700, 1986661051, 2177026350, 2456956037,
   2730485921, 2820302411, 3259730800, 3345764771, 3516065817,
   3600352804, 4094571909, 275423344, 430227734, 506948616,
   659060556, 883997877, 958139571, 1322822218, 1537002063,
   1747873779, 1955562222, 2024104815, 2227730452, 2361852424,
   2428436474, 2756734187, 3204031479, 3329325298]

/-- Big-endian 8-byte encoding of the message length in bits. -/
def lenBytes (bitLen : Nat) : List Nat :=
  [(bitLen >>> 56) % 256, (bitLen >>> 48) % 256, (bitLen >>> 40) % 256,
   (bitLen >>> 32) % 256, (bitLen >>> 24) % 256, (bitLen >>> 16) % 256,
   (bitLen >>> 8) % 256, bitLen % 256]

/-- SHA-256 padding: append `0x80`, then zeros up to 56 mod 64 bytes,
then the 64-bit big-endian bit length. -/
def padMessage (msg : List Nat) : List Nat :=
  msg ++ [0x80] ++ List.replicate ((119 - msg.length % 64) % 64) 0
      ++ lenBytes (msg.length * 8)

/-- Group the big-endian bytes four at a time into 32-bit words. -/
def bytesToWords : List Nat → List Nat
  | b0 :: b1 :: b2 :: b3 :: rest =>
      ((b0 <<< 24) ||| (b1 <<< 16) ||| (b2 <<< 8) ||| b3) :: bytesToWords rest
  | _ => []

def toBlocksAux : Nat → List Nat → List (List Nat)
  | 0, _ => []
  | _, [] => []
  | fuel + 1, l => l.take 64 :: toBlocksAux fuel (l.drop 64)

/-- Split a byte sequence into 64-byte blocks. -/
def toBlocks (l : List Nat) : List (List Nat) := toBlocksAux l.length l

def wordAt (w : List Nat) (i : Nat) : Nat := w.getD i 0

/-- Extend the 16 block words into the 64-word message schedule. -/
def extendSchedule : Nat → List Nat → List Nat
  | 0, w => w
  | fuel + 1, w =>
      extendSchedule fuel
        (w ++ [(wordAt w (w.length - 16) + smallSigma0 (wordAt w (w.length - 15))
                 + wordAt w (w.length - 7) + smallSigma1 (wordAt w (w.length - 2))) % M32])

structure Hash8 where
  a : Nat
  b : Nat
  c : Nat
  d : Nat
  e : Nat
  f : Nat
  g : Nat
  h : Nat
deriving Repr, DecidableEq

def initHash : Hash8 :=
  ⟨1779033703, 3144134277, 1013904242, 2773480762,
   1359893119, 2600822924, 528734635, 1541459225⟩

def compressRound (w k : Nat) (s : Hash8) : Hash8 :=
  let ch := (s.e &&& s.f) ^^^ ((s.e ^^^ 0xffffffff) &&& s.g)
  let t1 := (s.h + bigSigma1 s.e + ch + k + w) % M32
  let maj := (s.a &&& s.b) ^^^ (s.a &&& s.c) ^^^ (s.b &&& s.c)
  let t2 := (bigSigma0 s.a + maj) % M32
  ⟨(t1 + t2) % M32, s.a, s.b, s.c, (s.d + t1) % M32, s.e, s.f, s.g⟩

def add8 (x y : Hash8) : Hash8 :=
  ⟨(x.a + y.a) % M32, (x.b + y.b) % M32, (x.c + y.c) % M32, (x.d + y.d) % M32,
   (x.e + y.e) % M32, (x.f + y.f) % M32, (x.g + y.g) % M32, (x.h + y.h) % M32⟩

def compressBlock (s : Hash8) (block : List Nat) : Hash8 :=
  let w := extendSchedule 48 (bytesToWords block)
  add8 s ((List.zip w K).foldl (fun st p => compressRound p.1 p.2 st) s)

def sha256Words (msg : List Nat) : List Nat :=
  let s := (toBlocks (padMessage msg)).foldl compressBlock initHash
  [s.a, s.b, s.c, s.d, s.e, s.f, s.g, s.h]

def hexDigit (n : Nat) : Char :=
  ("0123456789abcdef".toList).getD n '0'

def toHexWord (n : Nat) : String :=
  String.mk ((List.range 8).map (fun i => hexDigit ((n >>> (28 - 4 * i)) &&& 15)))

def hexDigest (msg : List Nat) : String :=
  String.join ((sha256Words msg).map toHexWord)

/-- UTF-8 encoding of one code point (mirrors Python `str.encode("utf-8")`). -/
def utf8Encode (c : Nat) : List Nat :=
  if c < 0x80 then [c]
  else if c < 0x800 then
    [0xc0 ||| (c >>> 6), 0x80 ||| (c &&& 0x3f)]
  else if c < 0x10000 then
    [0xe0 ||| (c >>> 12), 0x80 ||| ((c >>> 6) &&& 0x3f), 0x80 ||| (c &&& 0x3f)]
  else
    [0xf0 ||| (c >>> 18), 0x80 ||| ((c >>> 12) &&& 0x3f),
     0x80 ||| ((c >>> 6) &&& 0x3f), 0x80 ||| (c &&& 0x3f)]

def utf8Bytes (s : String) : List Nat :=
  s.toList.foldr (fun c acc => utf8Encode c.toNat ++ acc) []

end SHA256

/-! ## `src/db.py` — message persistence

The `messages` table is modelled as a list of rows held in insertion
order together with the next `AUTOINCREMENT` id.  The `metadata` JSON
column (session id, wall-clock timestamp, hash copy) is not modelled:
no claim mentions it and the timestamp would need a clock. -/

/-- Embedding of `db._content_hash`: first 16 hex characters of the SHA-256 of the
UTF-8 encoded text. -/
def content_hash (text : String) : String :=
  (SHA256.hexDigest (SHA256.utf8Bytes text)).take 16

def MAX_MESSAGES : Nat := 5000

structure MessageRow where
  id : Nat
  role : String
  content : String
  source : String
  contentHash : Option String
deriving Repr, DecidableEq

structure MessagesDB where
  rows : List MessageRow
  nextId : Nat
deriving Repr, DecidableEq

/-- SQL query `SELECT content_hash FROM messages WHERE role = ? ORDER BY id DESC LIMIT 1`:
the matching row with the greatest id (independent of storage order). -/
def lastRowWithRole (rows : List MessageRow) (role : String) : Option MessageRow :=
  (rows.filter (fun r => r.role == role)).foldl
    (fun acc r =>
      match acc with
      | none => some r
      | some m => if m.id < r.id then some r else some m)
    none

/-- Embedding of `db._is_duplicate`: the last message with the same role has the same
content hash.  A row whose `content_hash` column is NULL (legacy rows)
never compares equal to a hash string, exactly as `None == c_hash` is
false in Python. -/
def is_duplicate (rows : List MessageRow) (role : String) (cHash : String) : Bool :=
  match lastRowWithRole rows role with
  | none => false
  | some row => row.contentHash == some cHash

def countGreaterId (rows : List MessageRow) (i : Nat) : Nat :=
  (rows.filter (fun r => i < r.id)).length

/-- Embedding of `db._maybe_rotate`: when the row count exceeds `MAX_MESSAGES`, delete
every row whose id is not among the `MAX_MESSAGES` largest
(`DELETE FROM messages WHERE id NOT IN (SELECT id FROM messages ORDER BY id DESC LIMIT ?)`).
A row survives iff fewer than `MAX_MESSAGES` rows have a greater id. -/
def rotate_rows (rows : List MessageRow) : List MessageRow :=
  if MAX_MESSAGES < rows.length then
    rows.filter (fun r => countGreaterId rows r.id < MAX_MESSAGES)
  else rows

/-- Python `not content or not content.strip()`: the content is empty or
consists of whitespace only. -/
def isBlank (s : String) : Bool :=
  s.toList.all (fun c => c.isWhitespace)

/-- Embedding of `db.save_message`: skip blank content, skip when `_is_duplicate`,
otherwise insert one row (with the next id and the content hash) and
rotate.  `sessionId` only enters the unmodelled `metadata` JSON. -/
def save_message (db : MessagesDB) (role content source sessionId : String) : MessagesDB :=
  if isBlank content then db
  else
    let cHash := content_hash content
    if is_duplicate db.rows role cHash then db
    else
      { rows := rotate_rows
          (db.rows ++ [⟨db.nextId, role, content, source, some cHash⟩]),
        nextId := db.nextId + 1 }

/-! ## The orchestrator subsystem

The implementation (`orchestrator.py`, `schemas.py`) is not part of the
visible repository: only `src/test_orchestrator.py` exercises it and the
specification (§2–§7) describes it.  Every definition below is therefore
modelled from the spec, with the concrete strings ("rust-backend",
"failed after", "Merge conflicts") pinned by the test suite. -/

/-- Modelled from the spec (§4.1): the fixed per-token price used by the
Budget Ledger.  The spec fixes that a positive constant exists but not
its value; we take $10 per million tokens.  All monetary amounts are
held exactly, in integer micro-USD (1 USD = 1000000 micro-USD), so a
price of $10 per million tokens is 10 micro-USD per token. -/
def pricePerToken : Nat := 10

/-- Modelled from the spec (§4.1): cost is a pure function of the token
counts and the fixed per-token price. -/
def costOf (inputTokens outputTokens : Nat) : Nat :=
  pricePerToken * (inputTokens + outputTokens)

/-- Modelled from the spec (§4.1): the Budget Ledger's only state is the
running total. -/
structure BudgetLedger where
  totalSpent : Nat
deriving Repr, DecidableEq

/-- Modelled from the spec (§4.1): `record(inputTokens, outputTokens) ->
costDelta` adds the cost of the call to the running total and returns the
delta. -/
def BudgetLedger.record (l : BudgetLedger) (inputTokens outputTokens : Nat) :
    BudgetLedger × Nat :=
  (⟨l.totalSpent + costOf inputTokens outputTokens⟩, costOf inputTokens outputTokens)

/-- Modelled from the spec (§4.1): `isOverBudget()` is true when
`totalSpent ≥ configured budget`. -/
def BudgetLedger.isOverBudget (l : BudgetLedger) (budget : Nat) : Bool :=
  budget ≤ l.totalSpent

/-- The ledger after a whole sequence of `record` calls. -/
def finalLedger (l : BudgetLedger) (calls : List (Nat × Nat)) : BudgetLedger :=
  calls.foldl (fun acc c => (acc.record c.1 c.2).1) l

/-- The cost deltas returned by the successive `record` calls. -/
def ledgerDeltas (l : BudgetLedger) : List (Nat × Nat) → List Nat
  | [] => []
  | c :: cs => (l.record c.1 c.2).2 :: ledgerDeltas (l.record c.1 c.2).1 cs

/-- Every intermediate ledger state along a sequence of `record` calls
(starting state included). -/
def ledgerStates (l : BudgetLedger) : List (Nat × Nat) → List BudgetLedger
  | [] => [l]
  | c :: cs => l :: ledgerStates (l.record c.1 c.2).1 cs

/-! ### Schemas (modelled from the spec §3, names from the test suite) -/

inductive AgentStatus
  | success
  | failed
deriving Repr, DecidableEq

/-- Modelled from the spec (§3 AgentResult): outcome of one
agent-execution attempt.  The modified-file paths, tests-added count and
error list play no role in any claim and are omitted. -/
structure AgentResult where
  status : AgentStatus
  inputTokens : Nat
  outputTokens : Nat
  rawOutput : String
  durationSeconds : Nat
deriving Repr, DecidableEq

/-- Modelled from the spec (§3 ExecutionPlan): one role-tagged subtask. -/
structure AgentTask where
  role : String
  description : String
deriving Repr, DecidableEq

inductive TestLevel
  | fast
  | normal
deriving Repr, DecidableEq

/-- Modelled from the spec (§3 TestResult). -/
structure TestResult where
  level : TestLevel
  passed : Bool
  totalTests : Nat
  passedTests : Nat
  failedTests : List String
deriving Repr, DecidableEq

/-- Modelled from the spec (§3 TestBaseline). -/
structure TestBaseline where
  totalTests : Nat
  passingTests : Nat
  snapshotHash : String
deriving Repr, DecidableEq

inductive TaskStatus
  | pending
  | executing
  | done
  | error
deriving Repr, DecidableEq

/-- Modelled from the spec (§4.4, pinned by
`test_planner_invalid_json_fallback`): the fixed default role of the
fallback plan. -/
def defaultRole : String := "rust-backend"

/-- Modelled from the spec (§4.4): parse the planner output into a set of
role-tagged subtasks; if parsing fails (`none`) or yields an empty agent
set, fall back to a single subtask with the default role and the original
task description verbatim.  The JSON parsing itself belongs to the
missing implementation, so the environment supplies its result as an
`Option`. -/
def generatePlan (parsed : Option (List AgentTask)) (taskDescription : String) :
    List AgentTask :=
  match parsed with
  | some agents => if agents.isEmpty then [⟨defaultRole, taskDescription⟩] else agents
  | none => [⟨defaultRole, taskDescription⟩]

/-- Modelled from the spec (§6) and the test-suite mocks: everything the
orchestrator consumes from the outside world — configuration
(`build_budget_usd`, `build_max_retries`), the planner's result and its
parse, and the streams of agent results, test results and per-merge
conflict lists that the external capabilities return, in call order. -/
structure OrchestratorEnv where
  taskDescription : String
  budgetMicroUsd : Nat
  maxRetries : Nat
  plannerResult : AgentResult
  plannerParse : Option (List AgentTask)
  agentResults : List AgentResult
  testResults : List TestResult
  mergeConflicts : List (List String)
  baseline : TestBaseline
deriving Repr, DecidableEq

/-- Mutable state threaded through a run: the ledger, the unconsumed
portions of the external streams, and the observable call counters. -/
structure RunState where
  ledger : BudgetLedger
  pendingAgentResults : List AgentResult
  pendingTestResults : List TestResult
  pendingMerges : List (List String)
  agentInvocations : Nat
  mergeCalls : Nat
  removedRoles : List String
deriving Repr, DecidableEq

inductive SubtaskOutcome
  | merged
  | conflicts (paths : List String)
  | failedRetries
  | skipped
deriving Repr, DecidableEq

/-- Outcomes whose subtask reached a merge attempt.  The merge capability
is invoked exactly once for a merged or conflicted subtask and never for
one that exhausted its retries or was budget-skipped. -/
def mergeHappened : SubtaskOutcome → Bool
  | SubtaskOutcome.merged => true
  | SubtaskOutcome.conflicts _ => true
  | SubtaskOutcome.failedRetries => false
  | SubtaskOutcome.skipped => false

/-- Modelled from the spec (§4.5): the per-subtask retry loop.  Per
attempt: skip when over budget; invoke the agent (recording its token
cost regardless of outcome); a failed invocation or a failed fast test
consumes the attempt; a passing fast test leads to merge, whose conflict
list decides between clean integration and a conflict outcome.  An
exhausted external stream is treated as a capability failure, i.e. an
ordinary attempt failure.  Fuel `0` means attempts are exhausted. -/
def runAttempts (budget : Nat) : Nat → RunState → SubtaskOutcome × RunState
  | 0, st => (SubtaskOutcome.failedRetries, st)
  | fuel + 1, st =>
    if st.ledger.isOverBudget budget then (SubtaskOutcome.skipped, st)
    else
      match st.pendingAgentResults with
      | [] => runAttempts budget fuel { st with agentInvocations := st.agentInvocations + 1 }
      | res :: restAgents =>
        let st1 : RunState :=
          { st with
            pendingAgentResults := restAgents,
            agentInvocations := st.agentInvocations + 1,
            ledger := (st.ledger.record res.inputTokens res.outputTokens).1 }
        match res.status with
        | AgentStatus.failed => runAttempts budget fuel st1
        | AgentStatus.success =>
          match st1.pendingTestResults with
          | [] => runAttempts budget fuel st1
          | tr :: restTests =>
            let st2 : RunState := { st1 with pendingTestResults := restTests }
            if tr.passed then
              match st2.pendingMerges with
              | [] => (SubtaskOutcome.merged, { st2 with mergeCalls := st2.mergeCalls + 1 })
              | confs :: restMerges =>
                let st3 : RunState :=
                  { st2 with pendingMerges := restMerges, mergeCalls := st2.mergeCalls + 1 }
                if confs.isEmpty then (SubtaskOutcome.merged, st3)
                else (SubtaskOutcome.conflicts confs, st3)
            else runAttempts budget fuel st2

/-- Modelled from the spec (§4.5 step 7 / §4.6): the terminal error text
for an exhausted subtask; contains "failed after" and the retry count,
as `test_max_retries_error` requires. -/
def retriesErrorMsg (t : AgentTask) (n : Nat) : String :=
  "Agent " ++ t.role ++ " " ++ "failed after " ++ toString n ++ " attempts"

/-- Modelled from the spec (§4.2 / §7): the terminal error text for a
conflicting merge; contains "Merge conflicts", as
`test_merge_conflicts_error` requires. -/
def conflictsErrorMsg (confs : List String) : String :=
  "Merge conflicts" ++ ": " ++ String.intercalate ", " confs

/-- Modelled from the spec (§4.5 / §4.6): process the subtasks in plan
order.  A merged or budget-skipped subtask lets processing continue; a
conflicting merge or an exhausted retry budget is task-terminal
(fail-fast), the latter also removing the subtask's workspace. -/
def runPlan (budget : Nat) (maxRetries : Nat) :
    List AgentTask → RunState →
      Option String × List (AgentTask × SubtaskOutcome) × RunState
  | [], st => (none, [], st)
  | t :: rest, st =>
    let r := runAttempts budget maxRetries st
    match r.1 with
    | SubtaskOutcome.merged =>
        let rec1 := runPlan budget maxRetries rest r.2
        (rec1.1, (t, SubtaskOutcome.merged) :: rec1.2.1, rec1.2.2)
    | SubtaskOutcome.skipped =>
        let rec1 := runPlan budget maxRetries rest r.2
        (rec1.1, (t, SubtaskOutcome.skipped) :: rec1.2.1, rec1.2.2)
    | SubtaskOutcome.conflicts confs =>
        (some (conflictsErrorMsg confs), [(t, SubtaskOutcome.conflicts confs)], r.2)
    | SubtaskOutcome.failedRetries =>
        (some (retriesErrorMsg t maxRetries), [(t, SubtaskOutcome.failedRetries)],
         { r.2 with removedRoles := r.2.removedRoles ++ [t.role] })

/-- Everything observable about one `Orchestrator.execute` run: the final
task record, the dashboard numbers, the external-call counters, and the
sequence of persisted (status, error) pairs in transition order. -/
structure ExecuteResult where
  status : TaskStatus
  errorMsg : Option String
  plan : List AgentTask
  subtaskOutcomes : List (AgentTask × SubtaskOutcome)
  totalCostMicroUsd : Nat
  agentInvocations : Nat
  mergeCalls : Nat
  removedRoles : List String
  cleanupCalls : Nat
  regressions : Nat
  persisted : List (TaskStatus × Option String)
deriving Repr, DecidableEq

/-- The run state right after the planner invocation: the planner's token
cost is recorded (spec §4.5 step 2 applies to the planning call too) and
one agent invocation has happened. -/
def initState (env : OrchestratorEnv) : RunState :=
  { ledger := (BudgetLedger.record ⟨0⟩ env.plannerResult.inputTokens
      env.plannerResult.outputTokens).1,
    pendingAgentResults := env.agentResults,
    pendingTestResults := env.testResults,
    pendingMerges := env.mergeConflicts,
    agentInvocations := 1,
    mergeCalls := 0,
    removedRoles := [] }

def planOf (env : OrchestratorEnv) : List AgentTask :=
  generatePlan env.plannerParse env.taskDescription

/-- Modelled from the spec (§4.6): `Orchestrator.execute`.  The task is
persisted as PENDING at creation and EXECUTING when work starts; after
baseline capture, planning and the per-subtask loop, a task-terminal
error persists ERROR (no global cleanup), otherwise the normal-level
regression test runs, global `cleanup()` is invoked once, and DONE is
persisted.  Budget exhaustion only skips work and never sets an error. -/
def execute (env : OrchestratorEnv) : ExecuteResult :=
  let res := runPlan env.budgetMicroUsd env.maxRetries (planOf env) (initState env)
  match res.1 with
  | some e =>
      { status := TaskStatus.error, errorMsg := some e, plan := planOf env,
        subtaskOutcomes := res.2.1,
        totalCostMicroUsd := res.2.2.ledger.totalSpent,
        agentInvocations := res.2.2.agentInvocations,
        mergeCalls := res.2.2.mergeCalls,
        removedRoles := res.2.2.removedRoles,
        cleanupCalls := 0,
        regressions := 0,
        persisted := [(TaskStatus.pending, none), (TaskStatus.executing, none),
          (TaskStatus.error, some e)] }
  | none =>
      let finalTest := match res.2.2.pendingTestResults with
        | tr :: _ => some tr
        | [] => none
      { status := TaskStatus.done, errorMsg := none, plan := planOf env,
        subtaskOutcomes := res.2.1,
        totalCostMicroUsd := res.2.2.ledger.totalSpent,
        agentInvocations := res.2.2.agentInvocations,
        mergeCalls := res.2.2.mergeCalls,
        removedRoles := res.2.2.removedRoles,
        cleanupCalls := 1,
        regressions := match finalTest with
          | some tr => env.baseline.passingTests - tr.passedTests
          | none => 0,
        persisted := [(TaskStatus.pending, none), (TaskStatus.executing, none),
          (TaskStatus.done, none)] }

/-! ### Generic helpers -/

/-- Substring occurrence: `sub` occurs somewhere inside `s`. -/
def strOccurs (sub s : String) : Prop := ∃ p q, s = p ++ sub ++ q

def sumCost (l : List AgentResult) : Nat :=
  (l.map (fun r => costOf r.inputTokens r.outputTokens)).sum

/-- Modelled from the spec (§7): the legal forward transitions of the
task lifecycle PENDING → EXECUTING → {DONE | ERROR}. -/
def allowedTransition (a b : TaskStatus) : Prop :=
  (a = TaskStatus.pending ∧ b = TaskStatus.executing) ∨
  (a = TaskStatus.executing ∧ (b = TaskStatus.done ∨ b = TaskStatus.error))

/-! ### Dashboard rendering (modelled from the spec §6 and
`TestFormatDashboard`) -/

/-- Modelled from the spec (§3): per-subtask dashboard entry (role,
display status, cost, duration, tokens). -/
structure AgentDashboardEntry where
  role : String
  status : String
  costMicroUsd : Nat
  durationSeconds : Nat
  tokens : Nat
deriving Repr, DecidableEq

/-- Modelled from the spec (§3/§6): the pull-based dashboard snapshot. -/
structure TaskDashboard where
  taskId : String
  description : String
  status : TaskStatus
  agents : List AgentDashboardEntry
  totalCostMicroUsd : Nat
  budgetMicroUsd : Nat
  baselineTests : Nat
  regressions : Nat
deriving Repr, DecidableEq

def pad2 (n : Nat) : String := if n < 10 then "0" ++ toString n else toString n

/-- Modelled from the spec (§6): cost rendered as dollars with two
decimals, `$X.XX`, from an exact micro-USD amount. -/
def formatMoney (micro : Nat) : String :=
  "$" ++ toString (micro / 1000000) ++ "." ++ pad2 (micro / 10000 % 100)

/-- Modelled from the spec (§6): durations rendered as `Ns`. -/
def formatDuration (n : Nat) : String := toString n ++ "s"

/-- Modelled from the spec (§6): token counts abbreviated in thousands
as `Nk tok`. -/
def formatTokens (n : Nat) : String := toString (n / 1000) ++ "k tok"

def statusText : TaskStatus → String
  | TaskStatus.pending => "pending"
  | TaskStatus.executing => "executing"
  | TaskStatus.done => "done"
  | TaskStatus.error => "error"

/-- Modelled from the spec (§6): one dashboard line per agent.  A DONE
entry carries cost, duration and abbreviated token count; any other
entry is rendered from its role and display status alone. -/
def agentLine (e : AgentDashboardEntry) : String :=
  if e.status == "done" then
    e.role ++ ": " ++ e.status ++ " (" ++ formatMoney e.costMicroUsd ++ ", "
      ++ formatDuration e.durationSeconds ++ ", " ++ formatTokens e.tokens ++ ")"
  else e.role ++ ": " ++ e.status

def agentsBlock : List AgentDashboardEntry → String
  | [] => ""
  | e :: rest => agentLine e ++ "\n" ++ agentsBlock rest

/-- Modelled from the spec (§6): `format_dashboard`, the pure fixed-format
rendering of a `TaskDashboard`, with summary lines
`<n> baseline` and `<n> regressions`. -/
def format_dashboard (d : TaskDashboard) : String :=
  "Task " ++ d.taskId ++ ": " ++ d.description ++ "\n"
    ++ "Status: " ++ statusText d.status ++ "\n"
    ++ "Cost: " ++ formatMoney d.totalCostMicroUsd ++ "/" ++ formatMoney d.budgetMicroUsd
    ++ "\n" ++ agentsBlock d.agents
    ++ toString d.baselineTests ++ " baseline" ++ ", "
    ++ toString d.regressions ++ " regressions"

/-! ### Concrete runs used as witnesses (mirroring the mocked test
scenarios of `src/test_orchestrator.py`) -/

/-- A successful agent result with the token counts of the test
fixture `_ok_agent_result`. -/
def okAgentW : AgentResult := ⟨AgentStatus.success, 1000, 500, "## RESULT", 10⟩

def okTestW (l : TestLevel) : TestResult := ⟨l, true, 10, 10, []⟩

def failTestW : TestResult :=
  ⟨TestLevel.fast, false, 10, 8, ["test_foo", "test_bar"]⟩

/-- Scenario of `test_happy_path`: one subtask, first attempt passes. -/
def happyEnv : OrchestratorEnv :=
  { taskDescription := "Add login endpoint",
    budgetMicroUsd := 15000000,
    maxRetries := 3,
    plannerResult := okAgentW,
    plannerParse := some [⟨"rust-backend", "Implement the feature"⟩],
    agentResults := [okAgentW],
    testResults := [okTestW TestLevel.fast, okTestW TestLevel.normal],
    mergeConflicts := [],
    baseline := ⟨10, 10, "abc123"⟩ }

/-- A run whose zero-cost planner immediately meets a zero budget: both
planned subtasks are skipped yet the task concludes DONE with zero
accumulated cost. -/
def zeroBudgetEnv : OrchestratorEnv :=
  { taskDescription := "Add feature",
    budgetMicroUsd := 0,
    maxRetries := 3,
    plannerResult := ⟨AgentStatus.success, 0, 0, "", 0⟩,
    plannerParse := some [⟨"rust-backend", "Task 1"⟩, ⟨"rust-frontend", "Task 2"⟩],
    agentResults := [okAgentW, okAgentW],
    testResults := [okTestW TestLevel.fast, okTestW TestLevel.normal],
    mergeConflicts := [],
    baseline := ⟨10, 10, "abc123"⟩ }

/-- Scenario of `test_max_retries_error`: two attempts, both fail fast
tests. -/
def retryFailEnv : OrchestratorEnv :=
  { happyEnv with
    maxRetries := 2,
    agentResults := [okAgentW, okAgentW],
    testResults := [failTestW, failTestW] }

/-- Scenario of `test_merge_conflicts_error`. -/
def conflictEnv : OrchestratorEnv :=
  { happyEnv with
    mergeConflicts := [["rust-backend: CONFLICT in src/main.rs"]] }

/-- A two-subtask plan whose first subtask merges cleanly and whose
second then fails its fast test on both of its two attempts: retry
exhaustion on a non-initial plan position. -/
def lateRetryFailEnv : OrchestratorEnv :=
  { happyEnv with
    maxRetries := 2,
    plannerParse := some [⟨"rust-backend", "Task 1"⟩, ⟨"rust-frontend", "Task 2"⟩],
    agentResults := [okAgentW, okAgentW, okAgentW],
    testResults := [okTestW TestLevel.fast, failTestW, failTestW],
    mergeConflicts := [] }

/-- A two-subtask plan whose first subtask merges cleanly and whose
second fails its first fast test, retries, passes, and then hits merge
conflicts: a conflicting merge after a retry on a non-initial plan
position. -/
def lateConflictEnv : OrchestratorEnv :=
  { happyEnv with
    plannerParse := some [⟨"rust-backend", "Task 1"⟩, ⟨"rust-frontend", "Task 2"⟩],
    agentResults := [okAgentW, okAgentW, okAgentW],
    testResults := [okTestW TestLevel.fast, failTestW, okTestW TestLevel.fast],
    mergeConflicts := [[], ["rust-frontend: CONFLICT in src/ui.rs"]] }

/-- Scenario of `test_budget_exceeded`: the planner's own cost exceeds
the configured budget of $0.001. -/
def lowBudgetEnv : OrchestratorEnv :=
  { happyEnv with
    budgetMicroUsd := 1000,
    plannerResult := ⟨AgentStatus.success, 100000, 50000, "json", 10⟩,
    plannerParse := some [⟨"rust-backend", "Task 1"⟩, ⟨"rust-frontend", "Task 2"⟩],
    agentResults := [okAgentW, okAgentW] }

/-- Scenario of `test_planner_invalid_json_fallback`: the planner output
is not parseable. -/
def fallbackEnv : OrchestratorEnv :=
  { happyEnv with plannerParse := none }

/-- The dashboard value of `test_format_dashboard_output`. -/
def testDashboard : TaskDashboard :=
  { taskId := "test-123",
    description := "Add authentication to the API",
    status := TaskStatus.executing,
    agents := [⟨"rust-backend", "done", 1500000, 45, 15000⟩,
      ⟨"rust-frontend", "running", 0, 0, 0⟩,
      ⟨"tester-cargo", "waiting", 0, 0, 0⟩],
    totalCostMicroUsd := 1500000,
    budgetMicroUsd := 15000000,
    baselineTests := 42,
    regressions := 0 }

/-! ### Theorems -/

set_option maxRecDepth 100000 in
/-- Sanity anchor for the hash embedding: the first 16 hex characters of
SHA-256("hello") (the value `test_save_fills_content_hash_column` checks
through `hashlib`). -/
theorem content_hash_hello : content_hash "hello" = "2cf24dba5fb0a30e" := by decide

/-! ### Lemmas about rotation -/

theorem countGreaterId_nil (i : Nat) : countGreaterId [] i = 0 := rfl

theorem countGreaterId_cons (a : MessageRow) (t : List MessageRow) (i : Nat) :
    countGreaterId (a :: t) i =
      (if i < a.id then 1 else 0) + countGreaterId t i := by
  simp only [countGreaterId, List.filter_cons]
  split
  · next h =>
    simp only [List.length_cons, decide_eq_true_eq] at *
    simp [h, Nat.add_comm]
  · next h =>
    simp only [decide_eq_true_eq] at h
    simp [h]

theorem countGreaterId_head_sorted (a : MessageRow) (t : List MessageRow)
    (h : ∀ b ∈ t, a.id < b.id) : countGreaterId (a :: t) a.id = t.length := by
  rw [countGreaterId_cons]
  simp only [lt_irrefl, if_false, Nat.zero_add]
  unfold countGreaterId
  rw [List.filter_eq_self.mpr]
  intro b hb
  simpa using h b hb

theorem countGreaterId_tail_sorted (a : MessageRow) (t : List MessageRow)
    (r : MessageRow) (hr : a.id < r.id) :
    countGreaterId (a :: t) r.id = countGreaterId t r.id := by
  rw [countGreaterId_cons]
  simp [Nat.not_lt.mpr (Nat.le_of_lt hr)]

/-- On a list sorted by strictly increasing id, the survivors of the
rotation filter are exactly the last `MAX_MESSAGES` entries. -/
theorem keep_filter_sorted :
    ∀ l : List MessageRow, List.Pairwise (fun x y => x.id < y.id) l →
      l.filter (fun r => countGreaterId l r.id < MAX_MESSAGES) =
        l.drop (l.length - MAX_MESSAGES)
  | [], _ => by simp
  | a :: t, hp => by
    obtain ⟨h1, h2⟩ := List.pairwise_cons.mp hp
    have htail :
        t.filter (fun r => countGreaterId (a :: t) r.id < MAX_MESSAGES) =
          t.filter (fun r => countGreaterId t r.id < MAX_MESSAGES) := by
      apply List.filter_congr
      intro r hr
      rw [countGreaterId_tail_sorted a t r (h1 r hr)]
    rw [List.filter_cons, htail, keep_filter_sorted t h2]
    by_cases hlen : t.length < MAX_MESSAGES
    · have hz : t.length - MAX_MESSAGES = 0 := by omega
      have hz2 : t.length + 1 - MAX_MESSAGES = 0 := by omega
      simp [countGreaterId_head_sorted a t h1, hlen, hz, hz2]
    · have hpos : t.length + 1 - MAX_MESSAGES = (t.length - MAX_MESSAGES) + 1 := by
        omega
      simp only [countGreaterId_head_sorted a t h1, hlen, decide_False,
        Bool.false_eq_true, if_false, List.length_cons, hpos, List.drop_succ_cons]

/-- Rotation on a list sorted by strictly increasing id keeps
exactly the suffix of length `MAX_MESSAGES` (or everything when not over
the limit, in which case the dropped amount is `0`). -/
theorem rotate_rows_sorted (l : List MessageRow)
    (hp : List.Pairwise (fun x y => x.id < y.id) l) :
    rotate_rows l = l.drop (l.length - MAX_MESSAGES) := by
  unfold rotate_rows
  split
  · exact keep_filter_sorted l hp
  · next h =>
    simp only [decide_eq_true_eq, Nat.not_lt] at h
    have : l.length - MAX_MESSAGES = 0 := by omega
    simp [this]

theorem rotate_rows_subset (l : List MessageRow) (r : MessageRow)
    (h : r ∈ rotate_rows l) : r ∈ l := by
  unfold rotate_rows at h
  split at h
  · exact (List.mem_filter.mp h).1
  · exact h

/-- The freshly inserted row (whose id dominates every stored id)
always survives rotation. -/
theorem new_row_survives (old : List MessageRow) (nw : MessageRow)
    (hinv : ∀ r ∈ old, r.id < nw.id) :
    nw ∈ rotate_rows (old ++ [nw]) := by
  have hmem : nw ∈ old ++ [nw] := by simp
  unfold rotate_rows
  split
  · apply List.mem_filter.mpr
    refine ⟨hmem, ?_⟩
    have hzero : countGreaterId (old ++ [nw]) nw.id = 0 := by
      unfold countGreaterId
      rw [List.filter_eq_nil_iff.mpr]
      · rfl
      · intro r hr
        rcases List.mem_append.mp hr with hl | hr1
        · have := hinv r hl
          simp
          omega
        · simp at hr1
          subst hr1
          simp
    rw [hzero]
    simp [MAX_MESSAGES]
  · exact hmem

/-- Claim C9: `save_message` behaviour (src/db.py lines 66-94):
blank content inserts nothing; when the most recently stored message with
the same role carries the same truncated SHA-256 content hash nothing is
inserted either — regardless of the new message's source, and with no
time-based window anywhere in the logic (the model has no clock because
the code consults none); otherwise exactly one row with that role,
content, source and content hash is inserted (and rotation can only
remove old rows, never the new one). -/
theorem save_message_dedup_cases (db : MessagesDB)
    (role content source sessionId : String)
    (hinv : ∀ r ∈ db.rows, r.id < db.nextId) :
    (isBlank content = true → save_message db role content source sessionId = db) ∧
    (isBlank content = false →
      is_duplicate db.rows role (content_hash content) = true →
      save_message db role content source sessionId = db) ∧
    (isBlank content = false →
      is_duplicate db.rows role (content_hash content) = false →
      (save_message db role content source sessionId).rows =
        rotate_rows (db.rows ++
          [⟨db.nextId, role, content, source, some (content_hash content)⟩]) ∧
      (⟨db.nextId, role, content, source, some (content_hash content)⟩ : MessageRow) ∈
        (save_message db role content source sessionId).rows ∧
      ∀ r ∈ (save_message db role content source sessionId).rows,
        r = ⟨db.nextId, role, content, source, some (content_hash content)⟩ ∨
          r ∈ db.rows) := by
  refine ⟨fun h => by simp [save_message, h], fun h1 h2 => by simp [save_message, h1, h2],
    fun h1 h2 => ?_⟩
  have hrows : (save_message db role content source sessionId).rows =
      rotate_rows (db.rows ++
        [⟨db.nextId, role, content, source, some (content_hash content)⟩]) := by
    simp [save_message, h1, h2]
  refine ⟨hrows, ?_, ?_⟩
  · rw [hrows]
    exact new_row_survives db.rows _ (fun r hr => hinv r hr)
  · intro r hr
    rw [hrows] at hr
    have := rotate_rows_subset _ _ hr
    rcases List.mem_append.mp this with hl | hr1
    · exact Or.inr hl
    · simp at hr1
      exact Or.inl hr1

/-- Witness for C9: inserting "hello" into an empty store really inserts
exactly that one row. -/
theorem save_message_dedup_cases_witness :
    (save_message ⟨[], 0⟩ "user" "hello" "telegram" "").rows =
      rotate_rows (([] : List MessageRow) ++
        [⟨0, "user", "hello", "telegram", some (content_hash "hello")⟩]) ∧
    (⟨0, "user", "hello", "telegram", some (content_hash "hello")⟩ : MessageRow) ∈
      (save_message ⟨[], 0⟩ "user" "hello" "telegram" "").rows ∧
    ∀ r ∈ (save_message ⟨[], 0⟩ "user" "hello" "telegram" "").rows,
      r = (⟨0, "user", "hello", "telegram", some (content_hash "hello")⟩ : MessageRow) ∨
        r ∈ ([] : List MessageRow) :=
  (save_message_dedup_cases ⟨[], 0⟩ "user" "hello" "telegram" ""
      (by simp)).2.2 (by decide) (by decide)

/-- Claim C10: after an inserting `save_message` call the table holds at
most `MAX_MESSAGES` rows, and when the insert pushes the count over the
limit exactly the `MAX_MESSAGES` rows with the largest ids survive:
the result is the suffix of the appended list, and every deleted row has
a smaller id than every retained row. -/
theorem save_message_rotation (db : MessagesDB)
    (role content source sessionId : String)
    (hsorted : List.Pairwise (fun x y => x.id < y.id) db.rows)
    (hinv : ∀ r ∈ db.rows, r.id < db.nextId)
    (hblank : isBlank content = false)
    (hdup : is_duplicate db.rows role (content_hash content) = false) :
    (save_message db role content source sessionId).rows.length ≤ MAX_MESSAGES ∧
    (save_message db role content source sessionId).rows =
      (db.rows ++
        [MessageRow.mk db.nextId role content source (some (content_hash content))]).drop
          (db.rows.length + 1 - MAX_MESSAGES) ∧
    ∀ r ∈ (db.rows ++
        [MessageRow.mk db.nextId role content source (some (content_hash content))]).take
          (db.rows.length + 1 - MAX_MESSAGES),
      ∀ k ∈ (save_message db role content source sessionId).rows, r.id < k.id := by
  set nw : MessageRow :=
    MessageRow.mk db.nextId role content source (some (content_hash content))
  have hall : List.Pairwise (fun x y : MessageRow => x.id < y.id) (db.rows ++ [nw]) := by
    rw [List.pairwise_append]
    refine ⟨hsorted, List.pairwise_singleton _ _, ?_⟩
    intro a ha b hb
    simp only [List.mem_singleton] at hb
    subst hb
    exact hinv a ha
  have hrows : (save_message db role content source sessionId).rows =
      rotate_rows (db.rows ++ [nw]) := by
    simp [save_message, hblank, hdup, nw]
  have hlenall : (db.rows ++ [nw]).length = db.rows.length + 1 := by simp
  have hrot : (save_message db role content source sessionId).rows =
      (db.rows ++ [nw]).drop (db.rows.length + 1 - MAX_MESSAGES) := by
    rw [hrows, rotate_rows_sorted _ hall, hlenall]
  refine ⟨?_, hrot, ?_⟩
  · rw [hrot]
    simp only [List.length_drop, hlenall]
    omega
  · intro r hr k hk
    rw [hrot] at hk
    have hsplit := hall
    rw [← List.take_append_drop (db.rows.length + 1 - MAX_MESSAGES) (db.rows ++ [nw])]
      at hsplit
    have := (List.pairwise_append.mp hsplit).2.2
    exact this r hr k hk

/-- Witness for C10: a one-row store plus one insert stays within the
limit and keeps both rows (the dropped portion is empty). -/
theorem save_message_rotation_witness :
    (save_message ⟨[⟨0, "assistant", "hi", "telegram", some "aa"⟩], 1⟩
        "user" "x" "claude-code" "").rows.length ≤ MAX_MESSAGES ∧
    (save_message ⟨[⟨0, "assistant", "hi", "telegram", some "aa"⟩], 1⟩
        "user" "x" "claude-code" "").rows =
      ([MessageRow.mk 0 "assistant" "hi" "telegram" (some "aa")] ++
        [MessageRow.mk 1 "user" "x" "claude-code" (some (content_hash "x"))]).drop
          ([MessageRow.mk 0 "assistant" "hi" "telegram"
            (some "aa")].length + 1 - MAX_MESSAGES) ∧
    ∀ r ∈ ([MessageRow.mk 0 "assistant" "hi" "telegram" (some "aa")] ++
        [MessageRow.mk 1 "user" "x" "claude-code" (some (content_hash "x"))]).take
          ([MessageRow.mk 0 "assistant" "hi" "telegram"
            (some "aa")].length + 1 - MAX_MESSAGES),
      ∀ k ∈ (save_message ⟨[⟨0, "assistant", "hi", "telegram", some "aa"⟩], 1⟩
          "user" "x" "claude-code" "").rows, r.id < k.id :=
  save_message_rotation ⟨[⟨0, "assistant", "hi", "telegram", some "aa"⟩], 1⟩
    "user" "x" "claude-code" ""
    (List.pairwise_singleton _ _) (by simp) (by decide) (by decide)

theorem costOf_nonneg (i o : Nat) : 0 ≤ costOf i o := Nat.zero_le _

theorem costOf_pos (i o : Nat) (h : 0 < i + o) : 0 < costOf i o := by
  unfold costOf pricePerToken
  omega

theorem ledgerStates_head (l : BudgetLedger) (calls : List (Nat × Nat)) :
    (ledgerStates l calls).head? = some l := by
  cases calls <;> rfl

theorem finalLedger_totalSpent (l : BudgetLedger) (calls : List (Nat × Nat)) :
    (finalLedger l calls).totalSpent = l.totalSpent + (ledgerDeltas l calls).sum := by
  induction calls generalizing l with
  | nil => simp [finalLedger, ledgerDeltas]
  | cons c cs ih =>
      simp only [finalLedger, List.foldl_cons, ledgerDeltas, List.sum_cons]
      rw [show (List.foldl (fun acc p => (BudgetLedger.record acc p.1 p.2).1)
          (l.record c.1 c.2).1 cs) = finalLedger (l.record c.1 c.2).1 cs from rfl]
      rw [ih]
      simp [BudgetLedger.record]
      ring

theorem ledgerStates_mono (l : BudgetLedger) (calls : List (Nat × Nat)) :
    List.Chain' (fun a b : BudgetLedger => a.totalSpent ≤ b.totalSpent)
      (ledgerStates l calls) := by
  induction calls generalizing l with
  | nil => simp [ledgerStates]
  | cons c cs ih =>
      rw [ledgerStates, List.chain'_cons']
      refine ⟨?_, ih _⟩
      intro b hb
      rw [ledgerStates_head] at hb
      cases hb
      simp only [BudgetLedger.record]
      exact Nat.le_add_right _ _

/-- Claim C6: Budget Ledger (spec §4.1): starting from a fresh ledger,
`totalSpent()` after any sequence of `record` calls equals the sum of the
per-call cost deltas, and the running total is monotonically
non-decreasing along the sequence. -/
theorem ledger_sum_and_monotone (calls : List (Nat × Nat)) :
    (finalLedger ⟨0⟩ calls).totalSpent = (ledgerDeltas ⟨0⟩ calls).sum ∧
    List.Chain' (fun a b : BudgetLedger => a.totalSpent ≤ b.totalSpent)
      (ledgerStates ⟨0⟩ calls) := by
  constructor
  · rw [finalLedger_totalSpent]
    simp
  · exact ledgerStates_mono _ _

theorem strOccurs_append_left (sub s t : String) (h : strOccurs sub s) :
    strOccurs sub (s ++ t) := by
  obtain ⟨p, q, rfl⟩ := h
  exact ⟨p, q ++ t, by rw [String.append_assoc, String.append_assoc]⟩

theorem strOccurs_append_right (sub s t : String) (h : strOccurs sub t) :
    strOccurs sub (s ++ t) := by
  obtain ⟨p, q, rfl⟩ := h
  exact ⟨s ++ p, q, by simp [String.append_assoc]⟩

/-- Total cost of a list of agent results. -/

theorem sumCost_nonneg (l : List AgentResult) : 0 ≤ sumCost l := Nat.zero_le _

theorem sumCost_cons (r : AgentResult) (t : List AgentResult) :
    sumCost (r :: t) = costOf r.inputTokens r.outputTokens + sumCost t := by
  simp [sumCost]

/-! ### Behaviour lemmas for the agent-execution loop -/

theorem isOverBudget_false (l : BudgetLedger) (b : Nat) (h : l.totalSpent < b) :
    l.isOverBudget b = false := by
  simp [BudgetLedger.isOverBudget]
  omega

theorem isOverBudget_true (l : BudgetLedger) (b : Nat) (h : b ≤ l.totalSpent) :
    l.isOverBudget b = true := by
  simp [BudgetLedger.isOverBudget]
  omega

/-- An over-budget attempt is skipped without touching the state. -/
theorem runAttempts_over (budget : Nat) (fuel : Nat) (st : RunState)
    (h : st.ledger.isOverBudget budget = true) :
    runAttempts budget (fuel + 1) st = (SubtaskOutcome.skipped, st) := by
  simp [runAttempts, h]

/-- When the ledger is already over budget, the whole plan is processed
as skipped subtasks with the state untouched. -/
theorem runPlan_over (budget : Nat) (k : Nat) :
    ∀ (plan : List AgentTask) (st : RunState),
      st.ledger.isOverBudget budget = true →
      runPlan budget (k + 1) plan st =
        (none, plan.map (fun t => (t, SubtaskOutcome.skipped)), st)
  | [], st, _ => by simp [runPlan]
  | t :: rest, st, h => by
      rw [runPlan]
      simp only [runAttempts_over budget k st h]
      rw [runPlan_over budget k rest st h]
      simp

/-- The running total never decreases across a retry loop. -/
theorem runAttempts_mono (budget : Nat) :
    ∀ (fuel : Nat) (st : RunState),
      st.ledger.totalSpent ≤ (runAttempts budget fuel st).2.ledger.totalSpent := by
  intro fuel
  induction fuel with
  | zero => intro st; simp [runAttempts]
  | succ n ih =>
    intro st
    obtain ⟨led, pA, pT, pM, inv, mc, rr⟩ := st
    by_cases hov : BudgetLedger.isOverBudget led budget
    · simp [runAttempts, hov]
    · cases pA with
      | nil =>
          simp only [runAttempts, hov, Bool.false_eq_true, if_false]
          exact ih (RunState.mk led [] pT pM (inv + 1) mc rr)
      | cons res restAgents =>
        have hrec : led.totalSpent ≤
            ((led.record res.inputTokens res.outputTokens).1).totalSpent := by
          simp only [BudgetLedger.record]
          exact Nat.le_add_right _ _
        obtain ⟨rs, ri, ro, rw1, rd⟩ := res
        cases rs with
        | failed =>
            simp only [runAttempts, hov, Bool.false_eq_true, if_false]
            exact le_trans hrec
              (ih (RunState.mk (led.record ri ro).1 restAgents pT pM (inv + 1) mc rr))
        | success =>
            cases pT with
            | nil =>
                simp only [runAttempts, hov, Bool.false_eq_true, if_false]
                exact le_trans hrec
                  (ih (RunState.mk (led.record ri ro).1 restAgents [] pM (inv + 1) mc rr))
            | cons tr restTests =>
                obtain ⟨tl, tp, tt, tpt, tf⟩ := tr
                cases tp with
                | true =>
                    cases pM with
                    | nil =>
                        simp only [runAttempts, hov, Bool.false_eq_true, if_false, if_true]
                        exact hrec
                    | cons confs restMerges =>
                        by_cases hc : confs.isEmpty
                        · simp only [runAttempts, hov, Bool.false_eq_true, if_false,
                            if_true, hc]
                          exact hrec
                        · simp only [runAttempts, hov, Bool.false_eq_true, if_false,
                            if_true, hc]
                          exact hrec
                | false =>
                    simp only [runAttempts, hov, Bool.false_eq_true, if_false]
                    exact le_trans hrec
                      (ih (RunState.mk (led.record ri ro).1 restAgents restTests pM
                        (inv + 1) mc rr))

/-- The running total never decreases across the whole plan. -/
theorem runPlan_mono (budget : Nat) (maxRetries : Nat) :
    ∀ (plan : List AgentTask) (st : RunState),
      st.ledger.totalSpent ≤ (runPlan budget maxRetries plan st).2.2.ledger.totalSpent
  | [], st => by simp [runPlan]
  | t :: rest, st => by
      rw [runPlan]
      have h1 := runAttempts_mono budget maxRetries st
      rcases hr : (runAttempts budget maxRetries st) with ⟨out, st1⟩
      rw [hr] at h1
      cases out with
      | merged =>
          have h2 := runPlan_mono budget maxRetries rest st1
          simpa using le_trans h1 h2
      | skipped =>
          have h2 := runPlan_mono budget maxRetries rest st1
          simpa using le_trans h1 h2
      | conflicts confs => simpa using h1
      | failedRetries => simpa using h1

/-- When the plan loop reports no error, every subtask was processed, in
order, and each one was either merged or budget-skipped. -/
theorem runPlan_none (budget : Nat) (maxRetries : Nat) :
    ∀ (plan : List AgentTask) (st : RunState),
      (runPlan budget maxRetries plan st).1 = none →
      (runPlan budget maxRetries plan st).2.1.map Prod.fst = plan ∧
      ∀ p ∈ (runPlan budget maxRetries plan st).2.1,
        p.2 = SubtaskOutcome.merged ∨ p.2 = SubtaskOutcome.skipped
  | [], st, _ => by simp [runPlan]
  | t :: rest, st, h => by
      rw [runPlan] at h ⊢
      rcases hr : (runAttempts budget maxRetries st) with ⟨out, st1⟩
      rw [hr] at h
      cases out with
      | merged =>
          simp only [] at h ⊢
          have := runPlan_none budget maxRetries rest st1 h
          refine ⟨by simp [this.1], ?_⟩
          intro p hp
          rcases List.mem_cons.mp hp with hp1 | hp2
          · subst hp1; exact Or.inl rfl
          · exact this.2 p hp2
      | skipped =>
          simp only [] at h ⊢
          have := runPlan_none budget maxRetries rest st1 h
          refine ⟨by simp [this.1], ?_⟩
          intro p hp
          rcases List.mem_cons.mp hp with hp1 | hp2
          · subst hp1; exact Or.inr rfl
          · exact this.2 p hp2
      | conflicts confs => simp at h
      | failedRetries => simp at h

/-- Every run terminates in DONE or ERROR. -/
theorem execute_terminal (env : OrchestratorEnv) :
    (execute env).status = TaskStatus.done ∨ (execute env).status = TaskStatus.error := by
  rw [execute]
  rcases hr : runPlan env.budgetMicroUsd env.maxRetries (planOf env) (initState env)
    with ⟨err, outs, st2⟩
  cases err with
  | none => left; rfl
  | some e => right; rfl

/-- A subtask whose agent invocations all succeed but whose fast tests
all fail exhausts its retry budget: all `fuel` attempts run (consuming
`fuel` agent results and `fuel` test results, recording every token
cost), no merge happens, and the outcome is `failedRetries`. -/
theorem runAttempts_allFail (budget : Nat) :
    ∀ (fuel : Nat) (st : RunState),
      (∀ r ∈ st.pendingAgentResults.take fuel, r.status = AgentStatus.success) →
      fuel ≤ st.pendingAgentResults.length →
      (∀ tr ∈ st.pendingTestResults.take fuel, tr.passed = false) →
      fuel ≤ st.pendingTestResults.length →
      st.ledger.totalSpent + sumCost (st.pendingAgentResults.take fuel) < budget →
      runAttempts budget fuel st =
        (SubtaskOutcome.failedRetries,
         { ledger := ⟨st.ledger.totalSpent + sumCost (st.pendingAgentResults.take fuel)⟩,
           pendingAgentResults := st.pendingAgentResults.drop fuel,
           pendingTestResults := st.pendingTestResults.drop fuel,
           pendingMerges := st.pendingMerges,
           agentInvocations := st.agentInvocations + fuel,
           mergeCalls := st.mergeCalls,
           removedRoles := st.removedRoles }) := by
  intro fuel
  induction fuel with
  | zero =>
      intro st _ _ _ _ _
      obtain ⟨⟨tot⟩, pA, pT, pM, inv, mc, rr⟩ := st
      simp [runAttempts, sumCost]
  | succ n ih =>
      intro st ha hal ht htl hb
      obtain ⟨⟨tot⟩, pA, pT, pM, inv, mc, rr⟩ := st
      dsimp only at ha hal ht htl hb ⊢
      cases pA with
      | nil => simp at hal
      | cons res restA =>
        cases pT with
        | nil => simp at htl
        | cons tr restT =>
          obtain ⟨rs, ri, ro, rw1, rd⟩ := res
          obtain ⟨tl, tp, tt, tpt, tf⟩ := tr
          have hres := ha (AgentResult.mk rs ri ro rw1 rd)
            (by rw [List.take_succ_cons]; exact List.mem_cons_self _ _)
          have htr := ht (TestResult.mk tl tp tt tpt tf)
            (by rw [List.take_succ_cons]; exact List.mem_cons_self _ _)
          dsimp only at hres htr
          subst hres
          subst htr
          have hcost : 0 ≤ costOf ri ro := costOf_nonneg ri ro
          have hsum : 0 ≤ sumCost (restA.take n) := sumCost_nonneg _
          rw [List.take_succ_cons, sumCost_cons] at hb
          dsimp only at hb
          have hov : BudgetLedger.isOverBudget ⟨tot⟩ budget = false := by
            apply isOverBudget_false
            dsimp only
            omega
          rw [runAttempts, hov]
          simp only [Bool.false_eq_true, if_false]
          have ih2 := ih (RunState.mk ⟨tot + costOf ri ro⟩ restA restT pM (inv + 1) mc rr)
            (by
              intro r hr
              apply ha
              rw [List.take_succ_cons]
              exact List.mem_cons_of_mem _ hr)
            (by simpa using Nat.le_of_succ_le_succ (by simpa using hal))
            (by
              intro x hx
              apply ht
              rw [List.take_succ_cons]
              exact List.mem_cons_of_mem _ hx)
            (by simpa using Nat.le_of_succ_le_succ (by simpa using htl))
            (by
              dsimp only
              omega)
          simp only [BudgetLedger.record]
          rw [ih2]
          have harith : tot + costOf ri ro + sumCost (List.take n restA) =
              tot + (costOf ri ro + sumCost (List.take n restA)) := by ring
          have hinv2 : inv + 1 + n = inv + (n + 1) := by omega
          simp [List.take_succ_cons, List.drop_succ_cons, sumCost_cons, harith, hinv2]

/-- The exhausted-retries message really carries "failed after" together
with the attempt count. -/
theorem strOccurs_failed_after (t : AgentTask) (n : Nat) :
    strOccurs ("failed after " ++ toString n) (retriesErrorMsg t n) :=
  ⟨"Agent " ++ t.role ++ " ", " attempts", by
    simp only [retriesErrorMsg, String.append_assoc]⟩

/-- The merge-conflict message really carries "Merge conflicts". -/
theorem strOccurs_merge_conflicts (confs : List String) :
    strOccurs "Merge conflicts" (conflictsErrorMsg confs) :=
  ⟨"", ": " ++ String.intercalate ", " confs, by
    simp only [conflictsErrorMsg, String.append_assoc]
    simp⟩

/-- Merge-call accounting for one retry loop: the counter grows by one
exactly when the loop's outcome is merged or conflicted, and is untouched
when the subtask fails its retries or is skipped. -/
theorem runAttempts_mergeCalls (budget : Nat) :
    ∀ (fuel : Nat) (st : RunState),
      (runAttempts budget fuel st).2.mergeCalls =
        st.mergeCalls +
          (if mergeHappened (runAttempts budget fuel st).1 then 1 else 0) := by
  intro fuel
  induction fuel with
  | zero => intro st; simp [runAttempts, mergeHappened]
  | succ n ih =>
    intro st
    obtain ⟨led, pA, pT, pM, inv, mc, rr⟩ := st
    by_cases hov : BudgetLedger.isOverBudget led budget
    · simp [runAttempts, hov, mergeHappened]
    · cases pA with
      | nil =>
          simp only [runAttempts, hov, Bool.false_eq_true, if_false]
          exact ih (RunState.mk led [] pT pM (inv + 1) mc rr)
      | cons res restAgents =>
        obtain ⟨rs, ri, ro, rw1, rd⟩ := res
        cases rs with
        | failed =>
            simp only [runAttempts, hov, Bool.false_eq_true, if_false]
            exact ih (RunState.mk ((led.record ri ro).1) restAgents pT pM (inv + 1) mc rr)
        | success =>
            cases pT with
            | nil =>
                simp only [runAttempts, hov, Bool.false_eq_true, if_false]
                exact ih (RunState.mk ((led.record ri ro).1) restAgents [] pM (inv + 1) mc rr)
            | cons tr restTests =>
                obtain ⟨tl, tp, tt, tpt, tf⟩ := tr
                cases tp with
                | true =>
                    cases pM with
                    | nil =>
                        simp [runAttempts, hov, mergeHappened]
                    | cons confs restMerges =>
                        by_cases hc : confs.isEmpty
                        · simp [runAttempts, hov, hc, mergeHappened]
                        · simp [runAttempts, hov, hc, mergeHappened]
                | false =>
                    simp only [runAttempts, hov, Bool.false_eq_true, if_false]
                    exact ih (RunState.mk ((led.record ri ro).1) restAgents restTests pM
                      (inv + 1) mc rr)

/-- A conflict outcome always carries the non-empty list the merge call
returned: an empty merge result is classified as a clean merge. -/
theorem runAttempts_conflicts_ne_nil (budget : Nat) :
    ∀ (fuel : Nat) (st : RunState) (confs : List String),
      (runAttempts budget fuel st).1 = SubtaskOutcome.conflicts confs → confs ≠ [] := by
  intro fuel
  induction fuel with
  | zero => intro st confs h; simp [runAttempts] at h
  | succ n ih =>
    intro st confs h
    obtain ⟨led, pA, pT, pM, inv, mc, rr⟩ := st
    by_cases hov : BudgetLedger.isOverBudget led budget
    · simp [runAttempts, hov] at h
    · cases pA with
      | nil =>
          simp only [runAttempts, hov, Bool.false_eq_true, if_false] at h
          exact ih (RunState.mk led [] pT pM (inv + 1) mc rr) confs h
      | cons res restAgents =>
        obtain ⟨rs, ri, ro, rw1, rd⟩ := res
        cases rs with
        | failed =>
            simp only [runAttempts, hov, Bool.false_eq_true, if_false] at h
            exact ih (RunState.mk ((led.record ri ro).1) restAgents pT pM (inv + 1) mc rr)
              confs h
        | success =>
            cases pT with
            | nil =>
                simp only [runAttempts, hov, Bool.false_eq_true, if_false] at h
                exact ih (RunState.mk ((led.record ri ro).1) restAgents [] pM (inv + 1) mc rr)
                  confs h
            | cons tr restTests =>
                obtain ⟨tl, tp, tt, tpt, tf⟩ := tr
                cases tp with
                | true =>
                    cases pM with
                    | nil =>
                        simp [runAttempts, hov] at h
                    | cons confs2 restMerges =>
                        by_cases hc : confs2.isEmpty
                        · simp [runAttempts, hov, hc] at h
                        · simp only [runAttempts, hov, Bool.false_eq_true, if_false,
                            if_true, hc] at h
                          have hc2 : confs2 ≠ [] := by
                            cases confs2 with
                            | nil => simp at hc
                            | cons c cs => simp
                          simp at h
                          exact h ▸ hc2
                | false =>
                    simp only [runAttempts, hov, Bool.false_eq_true, if_false] at h
                    exact ih (RunState.mk ((led.record ri ro).1) restAgents restTests pM
                      (inv + 1) mc rr) confs h

/-- Merge-call accounting across the whole plan: the counter counts
exactly the subtasks whose outcome is merged or conflicted. -/
theorem runPlan_mergeCalls (budget maxRetries : Nat) :
    ∀ (plan : List AgentTask) (st : RunState),
      (runPlan budget maxRetries plan st).2.2.mergeCalls =
        st.mergeCalls +
          ((runPlan budget maxRetries plan st).2.1.filter
            (fun p => mergeHappened p.2)).length
  | [], st => by simp [runPlan]
  | t :: rest, st => by
      rw [runPlan]
      have h1 := runAttempts_mergeCalls budget maxRetries st
      rcases hr : (runAttempts budget maxRetries st) with ⟨out, st1⟩
      rw [hr] at h1
      cases out with
      | merged =>
          have h2 := runPlan_mergeCalls budget maxRetries rest st1
          simp only []
          simp only [mergeHappened, if_true] at h1
          rw [List.filter_cons_of_pos (by simp [mergeHappened])]
          rw [List.length_cons, h2, h1]
          omega
      | skipped =>
          have h2 := runPlan_mergeCalls budget maxRetries rest st1
          simp only []
          simp only [mergeHappened, if_false] at h1
          rw [List.filter_cons_of_neg (by simp [mergeHappened])]
          rw [h2, h1]
          simp
      | conflicts confs =>
          simp only []
          simp only [mergeHappened, if_true] at h1
          rw [List.filter_cons_of_pos (by simp [mergeHappened])]
          simp [h1]
      | failedRetries =>
          simp only []
          simp only [mergeHappened, if_false] at h1
          rw [List.filter_cons_of_neg (by simp [mergeHappened])]
          simp [h1]

/-- In every run the merge-call counter equals the number of merged or
conflicted subtask outcomes, so merge is never attempted for a subtask
that failed its retries or was skipped. -/
theorem execute_mergeCalls (env : OrchestratorEnv) :
    (execute env).mergeCalls =
      ((execute env).subtaskOutcomes.filter (fun p => mergeHappened p.2)).length := by
  have h := runPlan_mergeCalls env.budgetMicroUsd env.maxRetries (planOf env) (initState env)
  rw [execute]
  rcases hr : runPlan env.budgetMicroUsd env.maxRetries (planOf env) (initState env)
    with ⟨err, outs, st2⟩
  rw [hr] at h
  cases err with
  | none => simpa [initState] using h
  | some e => simpa [initState] using h

/-- Wherever in the plan a subtask exhausts its retries, the plan loop
stops with the exhausted-retries error for exactly that subtask, removes
its workspace, and its outcome entry is the last one, preceded only by
merged or skipped subtasks. -/
theorem runPlan_failed_mem (budget maxRetries : Nat) :
    ∀ (plan : List AgentTask) (st : RunState) (t : AgentTask),
      (t, SubtaskOutcome.failedRetries) ∈ (runPlan budget maxRetries plan st).2.1 →
      (runPlan budget maxRetries plan st).1 = some (retriesErrorMsg t maxRetries) ∧
      t.role ∈ (runPlan budget maxRetries plan st).2.2.removedRoles ∧
      ∃ pre, (runPlan budget maxRetries plan st).2.1 =
          pre ++ [(t, SubtaskOutcome.failedRetries)] ∧
        ∀ p ∈ pre, p.2 = SubtaskOutcome.merged ∨ p.2 = SubtaskOutcome.skipped
  | [], st, t, h => by simp [runPlan] at h
  | t0 :: rest, st, t, h => by
      rw [runPlan] at h ⊢
      rcases hr : (runAttempts budget maxRetries st) with ⟨out, st1⟩
      rw [hr] at h
      cases out with
      | merged =>
          simp only [] at h ⊢
          rcases List.mem_cons.mp h with h1 | h2
          · simp at h1
          · obtain ⟨he, hrole, pre, hpre, hall⟩ :=
              runPlan_failed_mem budget maxRetries rest st1 t h2
            refine ⟨he, hrole, (t0, SubtaskOutcome.merged) :: pre,
              by rw [hpre, List.cons_append], ?_⟩
            intro p hp
            rcases List.mem_cons.mp hp with hp1 | hp2
            · subst hp1; exact Or.inl rfl
            · exact hall p hp2
      | skipped =>
          simp only [] at h ⊢
          rcases List.mem_cons.mp h with h1 | h2
          · simp at h1
          · obtain ⟨he, hrole, pre, hpre, hall⟩ :=
              runPlan_failed_mem budget maxRetries rest st1 t h2
            refine ⟨he, hrole, (t0, SubtaskOutcome.skipped) :: pre,
              by rw [hpre, List.cons_append], ?_⟩
            intro p hp
            rcases List.mem_cons.mp hp with hp1 | hp2
            · subst hp1; exact Or.inr rfl
            · exact hall p hp2
      | conflicts confs =>
          simp only [] at h ⊢
          simp at h
      | failedRetries =>
          simp only [] at h ⊢
          simp at h
          subst h
          refine ⟨rfl, by simp, [], by simp, by simp⟩

/-- Wherever in the plan a merge reports conflicts — also after earlier
failed attempts of the same subtask — the plan loop stops with the
merge-conflict error built from that non-empty conflict list, and the
conflict entry is the last outcome, preceded only by merged or skipped
subtasks. -/
theorem runPlan_conflicts_mem (budget maxRetries : Nat) :
    ∀ (plan : List AgentTask) (st : RunState) (t : AgentTask) (confs : List String),
      (t, SubtaskOutcome.conflicts confs) ∈ (runPlan budget maxRetries plan st).2.1 →
      confs ≠ [] ∧
      (runPlan budget maxRetries plan st).1 = some (conflictsErrorMsg confs) ∧
      ∃ pre, (runPlan budget maxRetries plan st).2.1 =
          pre ++ [(t, SubtaskOutcome.conflicts confs)] ∧
        ∀ p ∈ pre, p.2 = SubtaskOutcome.merged ∨ p.2 = SubtaskOutcome.skipped
  | [], st, t, confs, h => by simp [runPlan] at h
  | t0 :: rest, st, t, confs, h => by
      rw [runPlan] at h ⊢
      rcases hr : (runAttempts budget maxRetries st) with ⟨out, st1⟩
      rw [hr] at h
      cases out with
      | merged =>
          simp only [] at h ⊢
          rcases List.mem_cons.mp h with h1 | h2
          · simp at h1
          · obtain ⟨hne, he, pre, hpre, hall⟩ :=
              runPlan_conflicts_mem budget maxRetries rest st1 t confs h2
            refine ⟨hne, he, (t0, SubtaskOutcome.merged) :: pre,
              by rw [hpre, List.cons_append], ?_⟩
            intro p hp
            rcases List.mem_cons.mp hp with hp1 | hp2
            · subst hp1; exact Or.inl rfl
            · exact hall p hp2
      | skipped =>
          simp only [] at h ⊢
          rcases List.mem_cons.mp h with h1 | h2
          · simp at h1
          · obtain ⟨hne, he, pre, hpre, hall⟩ :=
              runPlan_conflicts_mem budget maxRetries rest st1 t confs h2
            refine ⟨hne, he, (t0, SubtaskOutcome.skipped) :: pre,
              by rw [hpre, List.cons_append], ?_⟩
            intro p hp
            rcases List.mem_cons.mp hp with hp1 | hp2
            · subst hp1; exact Or.inr rfl
            · exact hall p hp2
      | conflicts confs2 =>
          simp only [] at h ⊢
          simp at h
          obtain ⟨ht, hc⟩ := h
          subst ht
          subst hc
          have hne : confs ≠ [] :=
            runAttempts_conflicts_ne_nil budget maxRetries st confs (by rw [hr])
          refine ⟨hne, rfl, [], by simp, by simp⟩
      | failedRetries =>
          simp only [] at h ⊢
          simp at h

/-- The recorded subtask outcomes are exactly what the plan loop
produced, in both the DONE and the ERROR branch. -/
theorem execute_subtaskOutcomes (env : OrchestratorEnv) :
    (execute env).subtaskOutcomes =
      (runPlan env.budgetMicroUsd env.maxRetries (planOf env) (initState env)).2.1 := by
  rw [execute]
  rcases hr : runPlan env.budgetMicroUsd env.maxRetries (planOf env) (initState env)
    with ⟨err, outs, st2⟩
  cases err with
  | none => rfl
  | some e => rfl

/-- When the plan loop reports an error, `execute` persists exactly that
error with status ERROR and passes the loop's removed-workspace list
through. -/
theorem execute_error (env : OrchestratorEnv) (e : String)
    (h : (runPlan env.budgetMicroUsd env.maxRetries (planOf env) (initState env)).1 =
      some e) :
    (execute env).status = TaskStatus.error ∧
    (execute env).errorMsg = some e ∧
    (execute env).removedRoles =
      (runPlan env.budgetMicroUsd env.maxRetries (planOf env)
        (initState env)).2.2.removedRoles ∧
    (execute env).persisted =
      [(TaskStatus.pending, none), (TaskStatus.executing, none),
        (TaskStatus.error, some e)] := by
  rw [execute]
  rcases hr : runPlan env.budgetMicroUsd env.maxRetries (planOf env) (initState env)
    with ⟨err, outs, st2⟩
  rw [hr] at h
  simp only [] at h
  subst h
  exact ⟨rfl, rfl, rfl, rfl⟩

/-! ### Claim theorems -/

/-- Claim C2: in every run in which some subtask — at any position of the
plan — exhausts all its retry attempts (the `failedRetries` outcome; it
covers in particular every run where the subtask's fast-level test fails
on all `maxRetries` attempts), the task ends with status ERROR, the
persisted error message is the exhausted-retries text carrying "failed
after" together with the attempt count, the workspace manager's remove()
is invoked for that subtask's role, the merge-call counter counts exactly
the merged-or-conflicted subtasks — so merge was never attempted for the
failed one — and the failed subtask is the final outcome entry, preceded
only by merged or budget-skipped subtasks. -/
theorem retries_exhausted (env : OrchestratorEnv) (t : AgentTask)
    (hmem : (t, SubtaskOutcome.failedRetries) ∈ (execute env).subtaskOutcomes) :
    (execute env).status = TaskStatus.error ∧
    (execute env).errorMsg = some (retriesErrorMsg t env.maxRetries) ∧
    strOccurs ("failed after " ++ toString env.maxRetries)
      (retriesErrorMsg t env.maxRetries) ∧
    t.role ∈ (execute env).removedRoles ∧
    (execute env).mergeCalls =
      ((execute env).subtaskOutcomes.filter (fun p => mergeHappened p.2)).length ∧
    (∃ pre, (execute env).subtaskOutcomes =
        pre ++ [(t, SubtaskOutcome.failedRetries)] ∧
      ∀ p ∈ pre, p.2 = SubtaskOutcome.merged ∨ p.2 = SubtaskOutcome.skipped) ∧
    (execute env).persisted =
      [(TaskStatus.pending, none), (TaskStatus.executing, none),
        (TaskStatus.error, some (retriesErrorMsg t env.maxRetries))] := by
  rw [execute_subtaskOutcomes] at hmem
  obtain ⟨he, hrole, pre, hpre, hall⟩ :=
    runPlan_failed_mem env.budgetMicroUsd env.maxRetries (planOf env) (initState env) t hmem
  obtain ⟨hs, hm, hrr, hp⟩ := execute_error env _ he
  exact ⟨hs, hm, strOccurs_failed_after t env.maxRetries,
    by rw [hrr]; exact hrole,
    execute_mergeCalls env,
    ⟨pre, by rw [execute_subtaskOutcomes, hpre], hall⟩,
    hp⟩

/-- Witness for C2: a two-subtask run whose first subtask merges cleanly
while the second exhausts both retries. -/
theorem retries_exhausted_witness :
    (execute lateRetryFailEnv).status = TaskStatus.error ∧
    (execute lateRetryFailEnv).errorMsg =
      some (retriesErrorMsg ⟨"rust-frontend", "Task 2"⟩ lateRetryFailEnv.maxRetries) ∧
    strOccurs ("failed after " ++ toString lateRetryFailEnv.maxRetries)
      (retriesErrorMsg ⟨"rust-frontend", "Task 2"⟩ lateRetryFailEnv.maxRetries) ∧
    (⟨"rust-frontend", "Task 2"⟩ : AgentTask).role ∈
      (execute lateRetryFailEnv).removedRoles ∧
    (execute lateRetryFailEnv).mergeCalls =
      ((execute lateRetryFailEnv).subtaskOutcomes.filter
        (fun p => mergeHappened p.2)).length ∧
    (∃ pre, (execute lateRetryFailEnv).subtaskOutcomes =
        pre ++ [(⟨"rust-frontend", "Task 2"⟩, SubtaskOutcome.failedRetries)] ∧
      ∀ p ∈ pre, p.2 = SubtaskOutcome.merged ∨ p.2 = SubtaskOutcome.skipped) ∧
    (execute lateRetryFailEnv).persisted =
      [(TaskStatus.pending, none), (TaskStatus.executing, none),
        (TaskStatus.error,
          some (retriesErrorMsg ⟨"rust-frontend", "Task 2"⟩
            lateRetryFailEnv.maxRetries))] :=
  retries_exhausted lateRetryFailEnv ⟨"rust-frontend", "Task 2"⟩ (by decide)

/-- Claim C3: in every run in which a merge returns a non-empty conflict
list for some subtask — at any position of the plan, also after earlier
failed attempts of that subtask — no exception propagates: the conflict
list is recorded as data in that subtask's outcome (which is the final
outcome entry, after only merged or budget-skipped subtasks, and is
provably non-empty: an empty merge result yields a clean merge), the
task ends with status ERROR, and the persisted error message contains
"Merge conflicts". -/
theorem merge_conflicts_terminal (env : OrchestratorEnv) (t : AgentTask)
    (confs : List String)
    (hmem : (t, SubtaskOutcome.conflicts confs) ∈ (execute env).subtaskOutcomes) :
    confs ≠ [] ∧
    (execute env).status = TaskStatus.error ∧
    (execute env).errorMsg = some (conflictsErrorMsg confs) ∧
    strOccurs "Merge conflicts" (conflictsErrorMsg confs) ∧
    (∃ pre, (execute env).subtaskOutcomes =
        pre ++ [(t, SubtaskOutcome.conflicts confs)] ∧
      ∀ p ∈ pre, p.2 = SubtaskOutcome.merged ∨ p.2 = SubtaskOutcome.skipped) ∧
    (execute env).persisted =
      [(TaskStatus.pending, none), (TaskStatus.executing, none),
        (TaskStatus.error, some (conflictsErrorMsg confs))] := by
  rw [execute_subtaskOutcomes] at hmem
  obtain ⟨hne, he, pre, hpre, hall⟩ :=
    runPlan_conflicts_mem env.budgetMicroUsd env.maxRetries (planOf env) (initState env)
      t confs hmem
  obtain ⟨hs, hm, hrr, hp⟩ := execute_error env _ he
  exact ⟨hne, hs, hm, strOccurs_merge_conflicts confs,
    ⟨pre, by rw [execute_subtaskOutcomes, hpre], hall⟩,
    hp⟩

/-- Witness for C3: a two-subtask run whose first subtask merges cleanly
while the second hits merge conflicts on its second attempt. -/
theorem merge_conflicts_terminal_witness :
    (["rust-frontend: CONFLICT in src/ui.rs"] : List String) ≠ [] ∧
    (execute lateConflictEnv).status = TaskStatus.error ∧
    (execute lateConflictEnv).errorMsg =
      some (conflictsErrorMsg ["rust-frontend: CONFLICT in src/ui.rs"]) ∧
    strOccurs "Merge conflicts"
      (conflictsErrorMsg ["rust-frontend: CONFLICT in src/ui.rs"]) ∧
    (∃ pre, (execute lateConflictEnv).subtaskOutcomes =
        pre ++ [(⟨"rust-frontend", "Task 2"⟩,
          SubtaskOutcome.conflicts ["rust-frontend: CONFLICT in src/ui.rs"])] ∧
      ∀ p ∈ pre, p.2 = SubtaskOutcome.merged ∨ p.2 = SubtaskOutcome.skipped) ∧
    (execute lateConflictEnv).persisted =
      [(TaskStatus.pending, none), (TaskStatus.executing, none),
        (TaskStatus.error,
          some (conflictsErrorMsg ["rust-frontend: CONFLICT in src/ui.rs"]))] :=
  merge_conflicts_terminal lateConflictEnv ⟨"rust-frontend", "Task 2"⟩
    ["rust-frontend: CONFLICT in src/ui.rs"] (by decide)

/-- Claim C4: when the planner output is not parseable (or parses to an
empty agent set), the plan is exactly one subtask with the default role
and the original task description verbatim; the run is indistinguishable
from one whose planner had produced exactly that plan (so the parsing
failure raises no error and is reported nowhere), and execution still
terminates in DONE or ERROR. -/
theorem planner_fallback (env : OrchestratorEnv)
    (h : env.plannerParse = none ∨ env.plannerParse = some []) :
    planOf env = [⟨defaultRole, env.taskDescription⟩] ∧
    execute env =
      execute { env with plannerParse := some [⟨defaultRole, env.taskDescription⟩] } ∧
    ((execute env).status = TaskStatus.done ∨ (execute env).status = TaskStatus.error) := by
  have hp1 : planOf env = [⟨defaultRole, env.taskDescription⟩] := by
    rcases h with h | h <;> simp [planOf, generatePlan, h]
  refine ⟨hp1, ?_, execute_terminal env⟩
  obtain ⟨td, b, mr, pr, pp, ar, ts, mc, bl⟩ := env
  have hp2 : planOf (OrchestratorEnv.mk td b mr pr
      (some [⟨defaultRole, td⟩]) ar ts mc bl) = [⟨defaultRole, td⟩] := by
    simp [planOf, generatePlan]
  rw [execute, execute]
  rw [show ({ OrchestratorEnv.mk td b mr pr pp ar ts mc bl with
      plannerParse := some [⟨defaultRole, td⟩] } : OrchestratorEnv) =
      OrchestratorEnv.mk td b mr pr (some [⟨defaultRole, td⟩]) ar ts mc bl from rfl]
  rw [hp2]
  rw [show planOf (OrchestratorEnv.mk td b mr pr pp ar ts mc bl) =
      [⟨defaultRole, td⟩] from hp1]
  rfl

/-- Witness for C4, on the `test_planner_invalid_json_fallback`
scenario. -/
theorem planner_fallback_witness :
    planOf fallbackEnv = [⟨defaultRole, fallbackEnv.taskDescription⟩] ∧
    execute fallbackEnv =
      execute { fallbackEnv with
        plannerParse := some [⟨defaultRole, fallbackEnv.taskDescription⟩] } ∧
    ((execute fallbackEnv).status = TaskStatus.done ∨
      (execute fallbackEnv).status = TaskStatus.error) :=
  planner_fallback fallbackEnv (Or.inl (by decide))

/-- Claim C5: when the ledger is already over budget right after the
planner invocation, the agent-execution capability is invoked exactly
once in total (the planner only), every planned subtask is skipped
rather than dispatched, and the run terminates normally with status DONE
and no error — budget exhaustion never sets an error. -/
theorem budget_skip (env : OrchestratorEnv)
    (hmr : 0 < env.maxRetries)
    (hb : env.budgetMicroUsd ≤
      costOf env.plannerResult.inputTokens env.plannerResult.outputTokens) :
    (execute env).agentInvocations = 1 ∧
    (execute env).subtaskOutcomes =
      (execute env).plan.map (fun t => (t, SubtaskOutcome.skipped)) ∧
    (execute env).status = TaskStatus.done ∧
    (execute env).errorMsg = none := by
  obtain ⟨k, hk⟩ : ∃ k, env.maxRetries = k + 1 := ⟨env.maxRetries - 1, by omega⟩
  have hover : (initState env).ledger.isOverBudget env.budgetMicroUsd = true := by
    apply isOverBudget_true
    simp [initState, BudgetLedger.record]
    omega
  have hrp := runPlan_over env.budgetMicroUsd k (planOf env) (initState env) hover
  rw [execute, hk, hrp]
  simp [initState]

/-- Witness for C5, on the `test_budget_exceeded` scenario. -/
theorem budget_skip_witness :
    (execute lowBudgetEnv).agentInvocations = 1 ∧
    (execute lowBudgetEnv).subtaskOutcomes =
      (execute lowBudgetEnv).plan.map (fun t => (t, SubtaskOutcome.skipped)) ∧
    (execute lowBudgetEnv).status = TaskStatus.done ∧
    (execute lowBudgetEnv).errorMsg = none :=
  budget_skip lowBudgetEnv (by decide) (by decide)

/-- Claim C7: the persisted lifecycle of every run is exactly
PENDING, then EXECUTING, then the terminal DONE or ERROR (with the error
message persisted alongside); consecutive persisted statuses follow only
the allowed forward transitions, so no transition ever leaves a terminal
state, and the status is persisted at creation and at every
transition. -/
theorem task_status_monotonic (env : OrchestratorEnv) :
    (execute env).persisted =
      [(TaskStatus.pending, none), (TaskStatus.executing, none),
        ((execute env).status, (execute env).errorMsg)] ∧
    ((execute env).status = TaskStatus.done ∨ (execute env).status = TaskStatus.error) ∧
    List.Chain' (fun a b : TaskStatus × Option String => allowedTransition a.1 b.1)
      (execute env).persisted := by
  refine ⟨?_, execute_terminal env, ?_⟩ <;>
  · rw [execute]
    rcases hr : runPlan env.budgetMicroUsd env.maxRetries (planOf env) (initState env)
      with ⟨err, outs, st2⟩
    cases err <;> simp [allowedTransition, List.chain'_cons]

/-- Claim C1, amended: if a run ends with status DONE then every subtask
of the execution plan was processed and each either reached DONE and was
merged into the integration line or was skipped on budget exhaustion;
global cleanup() was invoked exactly once; and — provided the planner
reported a nonzero token count — the accumulated total cost is strictly
positive.  (As stated originally the claim is refuted by
`execute_done_counterexample`: a run whose budget is exhausted
immediately still concludes DONE with its subtasks skipped, unmerged,
and, with a zero-token planner result, at zero cost.) -/
theorem done_implies_all_merged (env : OrchestratorEnv)
    (hp : 0 < env.plannerResult.inputTokens + env.plannerResult.outputTokens)
    (hd : (execute env).status = TaskStatus.done) :
    (execute env).subtaskOutcomes.map Prod.fst = (execute env).plan ∧
    (∀ p ∈ (execute env).subtaskOutcomes,
      p.2 = SubtaskOutcome.merged ∨ p.2 = SubtaskOutcome.skipped) ∧
    0 < (execute env).totalCostMicroUsd ∧
    (execute env).cleanupCalls = 1 := by
  rcases hr : runPlan env.budgetMicroUsd env.maxRetries (planOf env) (initState env)
    with ⟨err, outs, st2⟩
  cases err with
  | some e =>
      rw [execute] at hd
      rw [hr] at hd
      simp at hd
  | none =>
      have hout := runPlan_none env.budgetMicroUsd env.maxRetries (planOf env)
        (initState env) (by rw [hr])
      rw [hr] at hout
      have hmono := runPlan_mono env.budgetMicroUsd env.maxRetries (planOf env)
        (initState env)
      rw [hr] at hmono
      have hinit : (initState env).ledger.totalSpent =
          costOf env.plannerResult.inputTokens env.plannerResult.outputTokens := by
        simp [initState, BudgetLedger.record]
      have hpos := costOf_pos _ _ hp
      rw [execute, hr]
      refine ⟨by simpa using hout.1, by simpa using hout.2, ?_, rfl⟩
      simp only []
      rw [hinit] at hmono
      simp only [] at hmono
      omega

/-- Counterexample to C1 as stated: a zero-budget run with a zero-token
planner result ends DONE, yet no subtask was merged and the accumulated
cost is zero. -/
theorem execute_done_counterexample :
    (execute zeroBudgetEnv).status = TaskStatus.done ∧
    ¬ (∀ p ∈ (execute zeroBudgetEnv).subtaskOutcomes, p.2 = SubtaskOutcome.merged) ∧
    ¬ (0 < (execute zeroBudgetEnv).totalCostMicroUsd) := by decide

/-- Witness for the amended C1, on the `test_happy_path` scenario. -/
theorem done_implies_all_merged_witness :
    (execute happyEnv).subtaskOutcomes.map Prod.fst = (execute happyEnv).plan ∧
    (∀ p ∈ (execute happyEnv).subtaskOutcomes,
      p.2 = SubtaskOutcome.merged ∨ p.2 = SubtaskOutcome.skipped) ∧
    0 < (execute happyEnv).totalCostMicroUsd ∧
    (execute happyEnv).cleanupCalls = 1 :=
  done_implies_all_merged happyEnv (by decide) (by decide)

theorem strOccurs_self (s : String) : strOccurs s s :=
  ⟨"", "", by simp⟩

theorem agentsBlock_occurs (e : AgentDashboardEntry) :
    ∀ l : List AgentDashboardEntry, e ∈ l → strOccurs (agentLine e) (agentsBlock l)
  | [], h => absurd h (List.not_mem_nil e)
  | a :: rest, h => by
      rcases List.mem_cons.mp h with h1 | h2
      · subst h1
        rw [agentsBlock]
        exact strOccurs_append_left _ _ _ (strOccurs_append_left _ _ _ (strOccurs_self _))
      · rw [agentsBlock]
        exact strOccurs_append_right _ _ _ (agentsBlock_occurs e rest h2)

/-- Claim C8: `format_dashboard` is a pure function of the dashboard
value (equal inputs give identical output); its text contains the total
cost rendered `$X.XX/$Y.YY` and the summary lines `<n> baseline` and
`<n> regressions`; every agent entry's line appears in the output; a
DONE entry's line carries its cost, duration (`Ns`) and abbreviated
token count (`Nk tok`); and a non-DONE entry's line is built from its
role and display status alone, so it includes none of those fields. -/
theorem format_dashboard_props (d : TaskDashboard) :
    (∀ d2, d = d2 → format_dashboard d = format_dashboard d2) ∧
    strOccurs (formatMoney d.totalCostMicroUsd ++ "/" ++ formatMoney d.budgetMicroUsd)
      (format_dashboard d) ∧
    strOccurs (toString d.baselineTests ++ " baseline") (format_dashboard d) ∧
    strOccurs (toString d.regressions ++ " regressions") (format_dashboard d) ∧
    (∀ e ∈ d.agents, strOccurs (agentLine e) (format_dashboard d)) ∧
    (∀ e ∈ d.agents, e.status = "done" →
      agentLine e = e.role ++ ": " ++ e.status ++ " (" ++ formatMoney e.costMicroUsd
        ++ ", " ++ (toString e.durationSeconds ++ "s") ++ ", "
        ++ (toString (e.tokens / 1000) ++ "k tok") ++ ")") ∧
    (∀ e ∈ d.agents, e.status ≠ "done" → agentLine e = e.role ++ ": " ++ e.status) := by
  refine ⟨fun d2 h => by rw [h], ?_, ?_, ?_, ?_, ?_, ?_⟩
  · refine ⟨"Task " ++ d.taskId ++ ": " ++ d.description ++ "\n" ++ "Status: "
      ++ statusText d.status ++ "\n" ++ "Cost: ",
      "\n" ++ agentsBlock d.agents ++ toString d.baselineTests ++ " baseline" ++ ", "
      ++ toString d.regressions ++ " regressions", ?_⟩
    simp only [format_dashboard, String.append_assoc]
  · refine ⟨"Task " ++ d.taskId ++ ": " ++ d.description ++ "\n" ++ "Status: "
      ++ statusText d.status ++ "\n" ++ "Cost: " ++ formatMoney d.totalCostMicroUsd
      ++ "/" ++ formatMoney d.budgetMicroUsd ++ "\n" ++ agentsBlock d.agents,
      ", " ++ toString d.regressions ++ " regressions", ?_⟩
    simp only [format_dashboard, String.append_assoc]
  · refine ⟨"Task " ++ d.taskId ++ ": " ++ d.description ++ "\n" ++ "Status: "
      ++ statusText d.status ++ "\n" ++ "Cost: " ++ formatMoney d.totalCostMicroUsd
      ++ "/" ++ formatMoney d.budgetMicroUsd ++ "\n" ++ agentsBlock d.agents
      ++ toString d.baselineTests ++ " baseline" ++ ", ", "", ?_⟩
    simp only [format_dashboard, String.append_assoc]
    simp
  · intro e he
    rw [format_dashboard]
    apply strOccurs_append_left
    apply strOccurs_append_left
    apply strOccurs_append_left
    apply strOccurs_append_left
    apply strOccurs_append_left
    apply strOccurs_append_right
    exact agentsBlock_occurs e d.agents he
  · intro e he h
    simp [agentLine, h, formatDuration, formatTokens]
  · intro e he h
    simp [agentLine, h]

/-- Witness for C8, on the `test_format_dashboard_output` dashboard:
the DONE entry's line is rendered with `$1.50`, `45s` and `15k tok`, and
the output contains `$1.50/$15.00`. -/
theorem format_dashboard_props_witness :
    agentLine ⟨"rust-backend", "done", 1500000, 45, 15000⟩ =
      "rust-backend: done ($1.50, 45s, 15k tok)" ∧
    strOccurs ("$1.50" ++ "/" ++ "$15.00") (format_dashboard testDashboard) := by
  constructor
  · have h := (format_dashboard_props testDashboard).2.2.2.2.2.1
      ⟨"rust-backend", "done", 1500000, 45, 15000⟩ (by decide) (by decide)
    rw [h]
    decide
  · have h := (format_dashboard_props testDashboard).2.1
    have e1 : formatMoney testDashboard.totalCostMicroUsd = "$1.50" := by decide
    have e2 : formatMoney testDashboard.budgetMicroUsd = "$15.00" := by decide
    rw [e1, e2] at h
    exact h

end Cotg
